import Mathlib

/-!
Shallow embedding of `pymon`'s character-database generator
(`src/pymon/gen/char.py` with the I/O layer `src/pymon/io.py`).

Python values that the pipeline touches are strings, integers and `None`;
dictionaries are modelled as association lists with Python-dict semantics
(first binding wins on lookup; assignment updates in place or appends).
Functions that can raise are modelled in `Except Err`.  Python's `str()`
is `pyStr` / `pyStrOpt` (`str(None) = "None"`); `str.lower` is modelled by
`pyLower`, character-wise ASCII lowering (the strings compared here are
ASCII).
-/

namespace Pymon

/-- A JSON scalar as the pipeline sees it: a string, an integer, or null. -/
inductive JVal where
  | s (v : String)
  | n (v : Int)
  | null
deriving DecidableEq, Repr

/-- Python `str()` on a scalar: strings unchanged, integers in decimal,
`None` rendered as `"None"`. -/
def pyStr : JVal → String
  | .s v => v
  | .n v => toString v
  | .null => "None"

/-- Python `str(d.get(k))`: a missing key gives `None`, rendered `"None"`. -/
def pyStrOpt : Option JVal → String
  | some v => pyStr v
  | none => "None"

/-- A JSON record: a mapping from field names to scalars. -/
abbrev Record := List (String × JVal)

/-- Python `d.get(k)` on a record (first binding wins). -/
def rGet : Record → String → Option JVal
  | [], _ => none
  | (k', v) :: rest, k => if k' == k then some v else rGet rest k

/-- One accumulator entry.  The Python passes add the keys `description`,
`rarity`, `element`, `weapon` one by one, so each is `Option`-valued
(`none` = key absent); `rarity` itself stores an optional string, since the
rarity pass can assign Python `None`. -/
structure CharRec where
  name : String
  description : Option String := none
  rarity : Option (Option String) := none
  element : Option String := none
  weapon : Option String := none
deriving DecidableEq, Repr

/-- The accumulator: character id (string) to character record, in
insertion order, as a Python dict. -/
abbrev Chars := List (String × CharRec)

/-- Python `characters[k]` as an `Option` (first binding wins). -/
def getKey : Chars → String → Option CharRec
  | [], _ => none
  | (k', v) :: rest, k => if k' == k then some v else getKey rest k

/-- Python `characters[k] = v`: update in place when the key exists,
append otherwise. -/
def setKey : Chars → String → CharRec → Chars
  | [], k, v => [(k, v)]
  | (k', v') :: rest, k, v =>
    if k' == k then (k, v) :: rest else (k', v') :: setKey rest k v

/-- The exceptions the pipeline can raise. -/
inductive Err where
  | runtimeError (msg : String)
  | keyError (key : String)
  | notImplementedError
  | fileNotFoundError (path : String)
deriving DecidableEq, Repr

deriving instance DecidableEq for Except

/-- The four loaded tables (`Lookup.content`). -/
structure Tables where
  avatarData : List Record
  fetterData : List Record
  manualData : List Record
  textMapEN : List (String × JVal)
deriving DecidableEq, Repr

/-- `Lookup.is_playable`: `avatar["UseType"] == "AVATAR_FORMAL"`, with a
missing key caught and turned into `False`. -/
def is_playable (avatar : Record) : Bool :=
  match rGet avatar "UseType" with
  | some v => v == .s "AVATAR_FORMAL"
  | none => false

/-- The `RuntimeError` message of a failed avatar scan. -/
def notFoundErr (avatar_id : String) : Err :=
  .runtimeError ("Unable to find avatar with id " ++ avatar_id)

/-- The loop body of `Lookup.avatar`: first playable record whose
stringified `Id` equals `avatar_id`; `avatar["Id"]` on a playable record
without `Id` raises `KeyError`. -/
def avatarScan (avatar_id : String) : List Record → Except Err Record
  | [] => .error (notFoundErr avatar_id)
  | avatar :: rest =>
    if is_playable avatar then
      match rGet avatar "Id" with
      | none => .error (.keyError "Id")
      | some v =>
        if pyStr v == avatar_id then .ok avatar else avatarScan avatar_id rest
    else avatarScan avatar_id rest

/-- `Lookup.avatar`. -/
def Lookup.avatar (t : Tables) (avatar_id : String) : Except Err Record :=
  avatarScan avatar_id t.avatarData

/-- The loop body of `Lookup.manual_text_map`: first record whose
`TextMapId` equals the argument; returns its stringified
`TextMapContentTextMapHash`.  Direct indexing raises `KeyError` on a
record missing either field. -/
def manualScan (text_map_id : JVal) : List Record → Except Err String
  | [] => .error (.runtimeError "Unable to find text map id in manual text map")
  | element :: rest =>
    match rGet element "TextMapId" with
    | none => .error (.keyError "TextMapId")
    | some v =>
      if v == text_map_id then
        match rGet element "TextMapContentTextMapHash" with
        | none => .error (.keyError "TextMapContentTextMapHash")
        | some h => .ok (pyStr h)
      else manualScan text_map_id rest

/-- `Lookup.manual_text_map`. -/
def Lookup.manual_text_map (t : Tables) (text_map_id : JVal) : Except Err String :=
  manualScan text_map_id t.manualData

/-- `Lookup.text_map`: direct key lookup in `TextMapEN`, the value
stringified; an absent key re-raises the `KeyError`. -/
def Lookup.text_map (t : Tables) (hash_id : String) : Except Err String :=
  match rGet t.textMapEN hash_id with
  | some v => .ok (pyStr v)
  | none => .error (.keyError hash_id)

/-- `List.mapM` over `Except`, written out so that the iteration order of
the Python `for` loop (stop at the first raise) is explicit. -/
def mapE (f : α → Except Err β) : List α → Except Err (List β)
  | [] => .ok []
  | a :: l =>
    match f a with
    | .error e => .error e
    | .ok b =>
      match mapE f l with
      | .error e => .error e
      | .ok l' => .ok (b :: l')

/-- A fold over `Except`, for the loops that thread the accumulator. -/
def foldE (f : σ → α → Except Err σ) : σ → List α → Except Err σ
  | s, [] => .ok s
  | s, a :: l =>
    match f s a with
    | .error e => .error e
    | .ok s' => foldE f s' l

/-- Python `str.lower`, character-wise (ASCII). -/
def pyLower (s : String) : String :=
  ⟨s.data.map Char.toLower⟩

/-- The traveler special case of `_setup`: a resolved name equal to
`"traveler"` case-insensitively is replaced according to `BodyType`
(`BODY_BOY` to `Aether`, `BODY_GIRL` to `Lumine`); any other body type
raises `NotImplementedError`. -/
def resolveTraveler (element : Record) (character_name : String) : Except Err String :=
  if pyLower character_name == "traveler" then
    if rGet element "BodyType" == some (.s "BODY_BOY") then .ok "Aether"
    else if rGet element "BodyType" == some (.s "BODY_GIRL") then .ok "Lumine"
    else .error .notImplementedError
  else .ok character_name

/-- The loop body of `_setup`: skip non-playable records; otherwise
resolve the name hash, apply the traveler override, and assign a fresh
`{"name": ...}` record under the stringified `Id`. -/
def «_setup_step» (t : Tables) (characters : Chars) (element : Record) : Except Err Chars :=
  if is_playable element then
    match Lookup.text_map t (pyStrOpt (rGet element "NameTextMapHash")) with
    | .error e => .error e
    | .ok character_name =>
      match resolveTraveler element character_name with
      | .error e => .error e
      | .ok final_name =>
        .ok (setKey characters (pyStrOpt (rGet element "Id"))
              ⟨final_name, none, none, none, none⟩)
  else .ok characters

/-- `_setup`: populate the accumulator from the avatar table. -/
def «_setup» (t : Tables) (characters : Chars) : Except Err Chars :=
  foldE («_setup_step» t) characters t.avatarData

/-- The per-entry body of `_add_description`. -/
def descriptionEntry (t : Tables) (p : String × CharRec) : Except Err (String × CharRec) :=
  match Lookup.avatar t p.1 with
  | .error e => .error e
  | .ok avatar =>
    match Lookup.text_map t (pyStrOpt (rGet avatar "DescTextMapHash")) with
    | .error e => .error e
    | .ok description => .ok (p.1, { p.2 with description := some description })

/-- `_add_description`. -/
def «_add_description» (t : Tables) (characters : Chars) : Except Err Chars :=
  mapE (descriptionEntry t) characters

/-- The `rarity_conversion` dict read through Python `dict.get`: an
argument that is not one of the three listed strings gives `None`. -/
def rarity_conversion : Option JVal → Option String
  | some (.s "QUALITY_PURPLE") => some "4"
  | some (.s "QUALITY_ORANGE") => some "5"
  | some (.s "QUALITY_ORANGE_SP") => some "5"
  | _ => none

/-- The per-entry body of `_add_rarity`. -/
def rarityEntry (t : Tables) (p : String × CharRec) : Except Err (String × CharRec) :=
  match Lookup.avatar t p.1 with
  | .error e => .error e
  | .ok avatar =>
    .ok (p.1, { p.2 with rarity := some (rarity_conversion (rGet avatar "QualityType")) })

/-- `_add_rarity`. -/
def «_add_rarity» (t : Tables) (characters : Chars) : Except Err Chars :=
  mapE (rarityEntry t) characters

/-- The loop body of `_add_element`: resolve both vision hashes (the
"after" value is computed and discarded), then index the accumulator by
the stringified `AvatarId` — a missing key raises `KeyError`. -/
def «_add_element_step» (t : Tables) (characters : Chars) (element : Record) : Except Err Chars :=
  match Lookup.text_map t (pyStrOpt (rGet element "AvatarVisionBeforTextMapHash")) with
  | .error e => .error e
  | .ok vision_before =>
    match Lookup.text_map t (pyStrOpt (rGet element "AvatarVisionAfterTextMapHash")) with
    | .error e => .error e
    | .ok _vision_after =>
      match getKey characters (pyStrOpt (rGet element "AvatarId")) with
      | none => .error (.keyError (pyStrOpt (rGet element "AvatarId")))
      | some entry =>
        .ok (setKey characters (pyStrOpt (rGet element "AvatarId"))
              { entry with element := some vision_before })

/-- `_add_element`. -/
def «_add_element» (t : Tables) (characters : Chars) : Except Err Chars :=
  foldE («_add_element_step» t) characters t.fetterData

/-- The per-entry body of `_add_weapon`: `avatar["WeaponType"]` is a
direct index (KeyError when absent), resolved through the manual text map
and then the text map. -/
def weaponEntry (t : Tables) (p : String × CharRec) : Except Err (String × CharRec) :=
  match Lookup.avatar t p.1 with
  | .error e => .error e
  | .ok avatar =>
    match rGet avatar "WeaponType" with
    | none => .error (.keyError "WeaponType")
    | some character_weapon =>
      match Lookup.manual_text_map t character_weapon with
      | .error e => .error e
      | .ok weapon_hash =>
        match Lookup.text_map t weapon_hash with
        | .error e => .error e
        | .ok weapon => .ok (p.1, { p.2 with weapon := some weapon })

/-- `_add_weapon`. -/
def «_add_weapon» (t : Tables) (characters : Chars) : Except Err Chars :=
  mapE (weaponEntry t) characters

/-- The five passes of `main`, run in order on an initially empty
accumulator. -/
def pipeline (t : Tables) : Except Err Chars :=
  match «_setup» t [] with
  | .error e => .error e
  | .ok c1 =>
    match «_add_description» t c1 with
    | .error e => .error e
    | .ok c2 =>
      match «_add_rarity» t c2 with
      | .error e => .error e
      | .ok c3 =>
        match «_add_element» t c3 with
        | .error e => .error e
        | .ok c4 => «_add_weapon» t c4

/-- The four input documents as the filesystem may or may not provide
them (`pymon.io.read` raises `FileNotFoundError` on a missing one). -/
structure Inputs where
  avatarDoc : Option (List Record)
  fetterDoc : Option (List Record)
  manualDoc : Option (List Record)
  textMapDoc : Option (List (String × JVal))

/-- `pymon.io.read`: the parsed document, or `FileNotFoundError`. -/
def pymonRead (doc : Option α) (path : String) : Except Err α :=
  match doc with
  | some v => .ok v
  | none => .error (.fileNotFoundError path)

/-- Loading `Lookup.content`: all four documents are read before any pass
runs; a missing one aborts. -/
def loadTables (inp : Inputs) : Except Err Tables :=
  match pymonRead inp.avatarDoc "download/ExcelBinOutput/AvatarExcelConfigData.json" with
  | .error e => .error e
  | .ok a =>
    match pymonRead inp.fetterDoc "download/ExcelBinOutput/FetterInfoExcelConfigData.json" with
    | .error e => .error e
    | .ok f =>
      match pymonRead inp.manualDoc "download/ExcelBinOutput/ManualTextMapConfigData.json" with
      | .error e => .error e
      | .ok m =>
        match pymonRead inp.textMapDoc "download/TextMap/TextMapEN.json" with
        | .error e => .error e
        | .ok tm => .ok ⟨a, f, m, tm⟩

/-- A write performed by `pymon.io.write`. -/
structure WriteEvent where
  path : String
  content : Chars
deriving DecidableEq, Repr

/-- `main` with its observable write trace: load the tables, run the five
passes, and only then write the accumulator to the output document. -/
def mainRun (inp : Inputs) : List WriteEvent × Except Err Unit :=
  match loadTables inp with
  | .error e => ([], .error e)
  | .ok t =>
    match pipeline t with
    | .error e => ([], .error e)
    | .ok characters => ([⟨"doc/avatar_sample.json", characters⟩], .ok ())

/-- The minimal fixture of the specification: one playable avatar, one
fetter record, one manual-text-map record, four text-map entries. -/
def fixtureTables : Tables where
  avatarData := [[("Id", .n 10000002), ("UseType", .s "AVATAR_FORMAL"),
    ("NameTextMapHash", .s "H1"), ("QualityType", .s "QUALITY_ORANGE"),
    ("WeaponType", .s "WEAPON_SWORD_ONE_HAND"), ("DescTextMapHash", .s "H2")]]
  fetterData := [[("AvatarId", .n 10000002),
    ("AvatarVisionBeforTextMapHash", .s "H3"),
    ("AvatarVisionAfterTextMapHash", .s "H3")]]
  manualData := [[("TextMapId", .s "WEAPON_SWORD_ONE_HAND"),
    ("TextMapContentTextMapHash", .s "H4")]]
  textMapEN := [("H1", .s "Kamisato Ayaka"), ("H2", .s "A shrine maiden..."),
    ("H3", .s "Cryo"), ("H4", .s "Sword")]

/-- The accumulator the fixture is specified to produce. -/
def fixtureOut : Chars :=
  [("10000002", ⟨"Kamisato Ayaka", some "A shrine maiden...", some (some "5"),
    some "Cryo", some "Sword"⟩)]

/-- A table set whose avatar table holds one playable record without an
`Id` field: the scan of `Lookup.avatar` raises `KeyError` on it. -/
def cexTables : Tables where
  avatarData := [[("UseType", .s "AVATAR_FORMAL")]]
  fetterData := []
  manualData := []
  textMapEN := []

/-- An `Inputs` value with every document missing. -/
def emptyInputs : Inputs where
  avatarDoc := none
  fetterDoc := none
  manualDoc := none
  textMapDoc := none

/-! ## Association-list lemmas -/

theorem getKey_none_iff : ∀ (c : Chars) (k : String),
    getKey c k = none ↔ k ∉ c.map Prod.fst
  | [], k => by simp [getKey]
  | (k', v) :: rest, k => by
    simp only [getKey, List.map_cons, List.mem_cons]
    by_cases hk : k' = k
    · subst hk; simp
    · simp [hk, Ne.symm hk, getKey_none_iff rest k]

theorem getKey_mem : ∀ (c : Chars) (k : String) (v : CharRec),
    getKey c k = some v → (k, v) ∈ c
  | [], k, v => by simp [getKey]
  | (k', v') :: rest, k, v => by
    simp only [getKey]
    by_cases hk : k' = k
    · subst hk
      simp only [beq_self_eq_true, if_true, Option.some.injEq]
      rintro rfl
      exact List.mem_cons_self _ _
    · simp only [beq_eq_false_iff_ne, ne_eq, hk, not_false_eq_true, if_neg,
        beq_iff_eq]
      intro h
      exact List.mem_cons_of_mem _ (getKey_mem rest k v h)

theorem mem_map_fst_setKey : ∀ (c : Chars) (k : String) (v : CharRec) (k' : String),
    k' ∈ (setKey c k v).map Prod.fst ↔ k' = k ∨ k' ∈ c.map Prod.fst
  | [], k, v, k' => by simp [setKey]
  | (k₀, v₀) :: rest, k, v, k' => by
    simp only [setKey]
    by_cases hk : k₀ = k
    · subst hk; simp [or_assoc]
    · simp only [beq_eq_false_iff_ne, ne_eq, hk, not_false_eq_true, if_neg,
        beq_iff_eq, List.map_cons, List.mem_cons,
        mem_map_fst_setKey rest k v k']
      tauto

theorem setKey_map_fst_of_mem : ∀ (c : Chars) (k : String) (v : CharRec),
    k ∈ c.map Prod.fst → (setKey c k v).map Prod.fst = c.map Prod.fst
  | [], k, v => by simp
  | (k₀, v₀) :: rest, k, v => by
    simp only [setKey, List.map_cons, List.mem_cons]
    by_cases hk : k₀ = k
    · subst hk; simp
    · simp only [beq_eq_false_iff_ne, ne_eq, hk, not_false_eq_true, if_neg,
        beq_iff_eq, List.map_cons, List.cons.injEq, true_and]
      intro h
      rcases h with h | h
      · exact absurd h.symm hk
      · exact setKey_map_fst_of_mem rest k v h

theorem mem_setKey_elim : ∀ (c : Chars) (k : String) (v : CharRec) (p : String × CharRec),
    p ∈ setKey c k v → p ∈ c ∨ p = (k, v)
  | [], k, v, p => by simp [setKey]
  | (k₀, v₀) :: rest, k, v, p => by
    simp only [setKey]
    by_cases hk : k₀ = k
    · subst hk
      simp only [beq_self_eq_true, if_true, List.mem_cons]
      rintro (rfl | h)
      · exact Or.inr rfl
      · exact Or.inl (Or.inr h)
    · simp only [beq_eq_false_iff_ne, ne_eq, hk, not_false_eq_true, if_neg,
        beq_iff_eq, List.mem_cons]
      rintro (rfl | h)
      · exact Or.inl (Or.inl rfl)
      · rcases mem_setKey_elim rest k v p h with h' | h'
        · exact Or.inl (Or.inr h')
        · exact Or.inr h'

/-! ## Iteration lemmas for `mapE` and `foldE` -/

theorem mapE_ok_mem {f : α → Except Err β} :
    ∀ {l : List α} {l' : List β}, mapE f l = .ok l' → ∀ b ∈ l', ∃ a ∈ l, f a = .ok b
  | [], l' => by intro h; cases h; simp
  | a :: l, l' => by
    intro h b hb
    simp only [mapE] at h
    cases hfa : f a with
    | error e => rw [hfa] at h; cases h
    | ok b₀ =>
      rw [hfa] at h
      cases hml : mapE f l with
      | error e => rw [hml] at h; cases h
      | ok l₀ =>
        rw [hml] at h
        cases h
        rcases List.mem_cons.mp hb with rfl | hb'
        · exact ⟨a, List.mem_cons_self _ _, hfa⟩
        · rcases mapE_ok_mem hml b hb' with ⟨a', ha', hfa'⟩
          exact ⟨a', List.mem_cons_of_mem _ ha', hfa'⟩

theorem mapE_ok_forall {f : α → Except Err β} :
    ∀ {l : List α} {l' : List β}, mapE f l = .ok l' → ∀ a ∈ l, ∃ b ∈ l', f a = .ok b
  | [], l' => by simp
  | a :: l, l' => by
    intro h a₀ ha₀
    simp only [mapE] at h
    cases hfa : f a with
    | error e => rw [hfa] at h; cases h
    | ok b₀ =>
      rw [hfa] at h
      cases hml : mapE f l with
      | error e => rw [hml] at h; cases h
      | ok l₀ =>
        rw [hml] at h
        cases h
        rcases List.mem_cons.mp ha₀ with rfl | ha'
        · exact ⟨b₀, List.mem_cons_self _ _, hfa⟩
        · rcases mapE_ok_forall hml a₀ ha' with ⟨b', hb', hfb'⟩
          exact ⟨b', List.mem_cons_of_mem _ hb', hfb'⟩

theorem mapE_ok_map_eq {f : α → Except Err β} {g : β → γ} {g' : α → γ}
    (hf : ∀ a b, f a = .ok b → g b = g' a) :
    ∀ {l : List α} {l' : List β}, mapE f l = .ok l' → l'.map g = l.map g'
  | [], l' => by intro h; cases h; simp
  | a :: l, l' => by
    intro h
    simp only [mapE] at h
    cases hfa : f a with
    | error e => rw [hfa] at h; cases h
    | ok b₀ =>
      rw [hfa] at h
      cases hml : mapE f l with
      | error e => rw [hml] at h; cases h
      | ok l₀ =>
        rw [hml] at h
        cases h
        simp only [List.map_cons, hf a b₀ hfa, mapE_ok_map_eq hf hml]

theorem mapE_ok_of_forall {f : α → Except Err β} :
    ∀ {l : List α}, (∀ a ∈ l, ∃ b, f a = .ok b) → ∃ l', mapE f l = .ok l'
  | [] => by intro _; exact ⟨[], rfl⟩
  | a :: l => by
    intro h
    rcases h a (List.mem_cons_self _ _) with ⟨b, hb⟩
    rcases mapE_ok_of_forall (fun x hx => h x (List.mem_cons_of_mem _ hx)) with ⟨l₀, hl₀⟩
    exact ⟨b :: l₀, by simp [mapE, hb, hl₀]⟩

/-! ## Lemmas about the lookup scans -/

/-- The predicate `Lookup.avatar` scans for: a playable record whose
stringified `Id` equals the argument. -/
def avatarMatches (avatar_id : String) (r : Record) : Bool :=
  is_playable r && ((rGet r "Id").map pyStr == some avatar_id)

theorem avatarScan_ok : ∀ {l : List Record} {avatar_id : String} {r : Record},
    avatarScan avatar_id l = .ok r →
    ∃ l₁ l₂, l = l₁ ++ r :: l₂ ∧ avatarMatches avatar_id r = true ∧
      ∀ x ∈ l₁, avatarMatches avatar_id x = false
  | [], avatar_id, r => by intro h; cases h
  | a :: l, avatar_id, r => by
    intro h
    simp only [avatarScan] at h
    by_cases hp : is_playable a
    · rw [if_pos hp] at h
      cases hid : rGet a "Id" with
      | none => rw [hid] at h; cases h
      | some v =>
        rw [hid] at h
        dsimp only at h
        by_cases hv : pyStr v == avatar_id
        · rw [if_pos hv] at h
          cases h
          refine ⟨[], l, rfl, ?_, by simp⟩
          simp [avatarMatches, hp, hid, hv]
        · rw [if_neg hv] at h
          rcases avatarScan_ok h with ⟨l₁, l₂, rfl, hm, hall⟩
          refine ⟨a :: l₁, l₂, rfl, hm, ?_⟩
          intro x hx
          rcases List.mem_cons.mp hx with rfl | hx'
          · have hv' : pyStr v ≠ avatar_id := by simpa using hv
            simp [avatarMatches, hid, hv']
          · exact hall x hx'
    · rw [if_neg hp] at h
      rcases avatarScan_ok h with ⟨l₁, l₂, rfl, hm, hall⟩
      refine ⟨a :: l₁, l₂, rfl, hm, ?_⟩
      intro x hx
      rcases List.mem_cons.mp hx with rfl | hx'
      · simp [avatarMatches, hp]
      · exact hall x hx'

theorem avatar_ok_facts {t : Tables} {avatar_id : String} {r : Record}
    (h : Lookup.avatar t avatar_id = .ok r) :
    r ∈ t.avatarData ∧ avatarMatches avatar_id r = true := by
  rcases avatarScan_ok h with ⟨l₁, l₂, hl, hm, _⟩
  exact ⟨by rw [hl]; simp, hm⟩

theorem avatarScan_notFound_iff :
    ∀ {l : List Record} {avatar_id : String},
    (∀ r ∈ l, is_playable r = true → (rGet r "Id").isSome = true) →
    (avatarScan avatar_id l = .error (notFoundErr avatar_id) ↔
      ∀ r ∈ l, avatarMatches avatar_id r = false)
  | [], avatar_id => by simp [avatarScan]
  | a :: l, avatar_id => by
    intro hid
    simp only [avatarScan]
    by_cases hp : is_playable a
    · rw [if_pos hp]
      cases hida : rGet a "Id" with
      | none =>
        have := hid a (List.mem_cons_self _ _) hp
        rw [hida] at this
        cases this
      | some v =>
        dsimp only
        by_cases hv : pyStr v == avatar_id
        · rw [if_pos hv]
          constructor
          · intro h; cases h
          · intro h
            have := h a (List.mem_cons_self _ _)
            simp [avatarMatches, hp, hida, hv] at this
        · rw [if_neg hv]
          rw [avatarScan_notFound_iff (fun r hr => hid r (List.mem_cons_of_mem _ hr))]
          constructor
          · intro h r hr
            rcases List.mem_cons.mp hr with rfl | hr'
            · have hv' : pyStr v ≠ avatar_id := by simpa using hv
              simp [avatarMatches, hida, hv']
            · exact h r hr'
          · intro h r hr
            exact h r (List.mem_cons_of_mem _ hr)
    · rw [if_neg hp]
      rw [avatarScan_notFound_iff (fun r hr => hid r (List.mem_cons_of_mem _ hr))]
      constructor
      · intro h r hr
        rcases List.mem_cons.mp hr with rfl | hr'
        · simp [avatarMatches, hp]
        · exact h r hr'
      · intro h r hr
        exact h r (List.mem_cons_of_mem _ hr)

theorem foldE_inv {f : σ → α → Except Err σ} {P : σ → Prop}
    (hf : ∀ s a s', f s a = .ok s' → P s → P s') :
    ∀ {l : List α} {s s' : σ}, foldE f s l = .ok s' → P s → P s'
  | [], s, s' => by intro h hs; cases h; exact hs
  | a :: l, s, s' => by
    intro h hs
    simp only [foldE] at h
    cases hfa : f s a with
    | error e => rw [hfa] at h; cases h
    | ok s₀ =>
      rw [hfa] at h
      exact foldE_inv hf h (hf s a s₀ hfa hs)

/-! ## Structural lemmas about the passes -/

theorem resolveTraveler_cases {e : Record} {n s : String}
    (h : resolveTraveler e n = .ok s) :
    (pyLower n = "traveler" ∧ rGet e "BodyType" = some (.s "BODY_BOY") ∧ s = "Aether") ∨
    (pyLower n = "traveler" ∧ rGet e "BodyType" ≠ some (.s "BODY_BOY") ∧
      rGet e "BodyType" = some (.s "BODY_GIRL") ∧ s = "Lumine") ∨
    (pyLower n ≠ "traveler" ∧ s = n) := by
  unfold resolveTraveler at h
  by_cases ht : pyLower n == "traveler"
  · rw [if_pos ht] at h
    by_cases hb : rGet e "BodyType" == some (.s "BODY_BOY")
    · rw [if_pos hb] at h
      cases h
      exact Or.inl ⟨by simpa using ht, by simpa using hb, rfl⟩
    · rw [if_neg hb] at h
      by_cases hg : rGet e "BodyType" == some (.s "BODY_GIRL")
      · rw [if_pos hg] at h
        cases h
        exact Or.inr (Or.inl ⟨by simpa using ht, by simpa using hb, by simpa using hg, rfl⟩)
      · rw [if_neg hg] at h
        cases h
  · rw [if_neg ht] at h
    cases h
    exact Or.inr (Or.inr ⟨by simpa using ht, rfl⟩)

theorem resolveTraveler_ok_ne {e : Record} {n s : String}
    (h : resolveTraveler e n = .ok s) : s ≠ "Traveler" := by
  rcases resolveTraveler_cases h with ⟨_, _, rfl⟩ | ⟨_, _, _, rfl⟩ | ⟨ht, rfl⟩
  · decide
  · decide
  · intro hs
    subst hs
    exact ht (by decide)

theorem setup_step_cases {t : Tables} {c : Chars} {e : Record} {c' : Chars}
    (h : «_setup_step» t c e = .ok c') :
    (is_playable e = false ∧ c' = c) ∨
    (is_playable e = true ∧ ∃ nm fnm,
      Lookup.text_map t (pyStrOpt (rGet e "NameTextMapHash")) = .ok nm ∧
      resolveTraveler e nm = .ok fnm ∧
      c' = setKey c (pyStrOpt (rGet e "Id")) ⟨fnm, none, none, none, none⟩) := by
  unfold «_setup_step» at h
  by_cases hp : is_playable e
  · rw [if_pos hp] at h
    cases htm : Lookup.text_map t (pyStrOpt (rGet e "NameTextMapHash")) with
    | error e₀ => rw [htm] at h; cases h
    | ok nm =>
      rw [htm] at h
      dsimp only at h
      cases hrt : resolveTraveler e nm with
      | error e₀ => rw [hrt] at h; cases h
      | ok fnm =>
        rw [hrt] at h
        dsimp only at h
        cases h
        exact Or.inr ⟨hp, nm, fnm, rfl, hrt, rfl⟩
  · rw [if_neg hp] at h
    cases h
    exact Or.inl ⟨by simpa using hp, rfl⟩

theorem setup_fold_keys_mono {t : Tables} {l : List Record} {c c' : Chars}
    (h : foldE («_setup_step» t) c l = .ok c') {k : String}
    (hk : k ∈ c.map Prod.fst) : k ∈ c'.map Prod.fst := by
  refine foldE_inv (P := fun s => k ∈ s.map Prod.fst) ?_ h hk
  intro s a s' hstep hks
  rcases setup_step_cases hstep with ⟨_, rfl⟩ | ⟨_, nm, fnm, _, _, rfl⟩
  · exact hks
  · exact (mem_map_fst_setKey _ _ _ _).mpr (Or.inr hks)

theorem setup_fold_playable_mem {t : Tables} :
    ∀ {l : List Record} {c c' : Chars},
    foldE («_setup_step» t) c l = .ok c' →
    ∀ e ∈ l, is_playable e = true → pyStrOpt (rGet e "Id") ∈ c'.map Prod.fst
  | [], c, c' => by simp
  | a :: l, c, c' => by
    intro h e he hp
    simp only [foldE] at h
    cases hstep : «_setup_step» t c a with
    | error e₀ => rw [hstep] at h; cases h
    | ok c₀ =>
      rw [hstep] at h
      rcases List.mem_cons.mp he with rfl | he'
      · rcases setup_step_cases hstep with ⟨hp', _⟩ | ⟨_, nm, fnm, _, _, rfl⟩
        · rw [hp] at hp'; cases hp'
        · exact setup_fold_keys_mono h ((mem_map_fst_setKey _ _ _ _).mpr (Or.inl rfl))
      · exact setup_fold_playable_mem h e he' hp

theorem setup_fold_names {t : Tables} {l : List Record} {c c' : Chars}
    (h : foldE («_setup_step» t) c l = .ok c')
    (hc : ∀ p ∈ c, p.2.name ≠ "Traveler") :
    ∀ p ∈ c', p.2.name ≠ "Traveler" := by
  refine foldE_inv (P := fun s => ∀ p ∈ s, p.2.name ≠ "Traveler") ?_ h hc
  intro s a s' hstep hs p hp
  rcases setup_step_cases hstep with ⟨_, rfl⟩ | ⟨_, nm, fnm, _, hrt, rfl⟩
  · exact hs p hp
  · rcases mem_setKey_elim _ _ _ _ hp with h' | rfl
    · exact hs p h'
    · exact resolveTraveler_ok_ne hrt

theorem descriptionEntry_ok {t : Tables} {p q : String × CharRec}
    (h : descriptionEntry t p = .ok q) :
    ∃ avatar d, Lookup.avatar t p.1 = .ok avatar ∧
      Lookup.text_map t (pyStrOpt (rGet avatar "DescTextMapHash")) = .ok d ∧
      q = (p.1, { p.2 with description := some d }) := by
  unfold descriptionEntry at h
  cases ha : Lookup.avatar t p.1 with
  | error e => rw [ha] at h; cases h
  | ok avatar =>
    rw [ha] at h
    dsimp only at h
    cases hd : Lookup.text_map t (pyStrOpt (rGet avatar "DescTextMapHash")) with
    | error e => rw [hd] at h; cases h
    | ok d =>
      rw [hd] at h
      dsimp only at h
      cases h
      exact ⟨avatar, d, rfl, hd, rfl⟩

theorem rarityEntry_ok {t : Tables} {p q : String × CharRec}
    (h : rarityEntry t p = .ok q) :
    ∃ avatar, Lookup.avatar t p.1 = .ok avatar ∧
      q = (p.1, { p.2 with
        rarity := some (rarity_conversion (rGet avatar "QualityType")) }) := by
  unfold rarityEntry at h
  cases ha : Lookup.avatar t p.1 with
  | error e => rw [ha] at h; cases h
  | ok avatar =>
    rw [ha] at h
    dsimp only at h
    cases h
    exact ⟨avatar, rfl, rfl⟩

theorem weaponEntry_ok {t : Tables} {p q : String × CharRec}
    (h : weaponEntry t p = .ok q) :
    ∃ avatar w hsh wp, Lookup.avatar t p.1 = .ok avatar ∧
      rGet avatar "WeaponType" = some w ∧
      Lookup.manual_text_map t w = .ok hsh ∧
      Lookup.text_map t hsh = .ok wp ∧
      q = (p.1, { p.2 with weapon := some wp }) := by
  unfold weaponEntry at h
  cases ha : Lookup.avatar t p.1 with
  | error e => rw [ha] at h; cases h
  | ok avatar =>
    rw [ha] at h
    dsimp only at h
    cases hw : rGet avatar "WeaponType" with
    | none => rw [hw] at h; cases h
    | some w =>
      rw [hw] at h
      dsimp only at h
      cases hm : Lookup.manual_text_map t w with
      | error e => rw [hm] at h; cases h
      | ok hsh =>
        rw [hm] at h
        dsimp only at h
        cases htm : Lookup.text_map t hsh with
        | error e => rw [htm] at h; cases h
        | ok wp =>
          rw [htm] at h
          dsimp only at h
          cases h
          exact ⟨avatar, w, hsh, wp, rfl, hw, hm, htm, rfl⟩

theorem element_step_ok {t : Tables} {c : Chars} {e : Record} {c' : Chars}
    (h : «_add_element_step» t c e = .ok c') :
    ∃ vb va entry,
      Lookup.text_map t (pyStrOpt (rGet e "AvatarVisionBeforTextMapHash")) = .ok vb ∧
      Lookup.text_map t (pyStrOpt (rGet e "AvatarVisionAfterTextMapHash")) = .ok va ∧
      getKey c (pyStrOpt (rGet e "AvatarId")) = some entry ∧
      c' = setKey c (pyStrOpt (rGet e "AvatarId")) { entry with element := some vb } := by
  unfold «_add_element_step» at h
  cases hb : Lookup.text_map t (pyStrOpt (rGet e "AvatarVisionBeforTextMapHash")) with
  | error e₀ => rw [hb] at h; cases h
  | ok vb =>
    rw [hb] at h
    dsimp only at h
    cases hafter : Lookup.text_map t (pyStrOpt (rGet e "AvatarVisionAfterTextMapHash")) with
    | error e₀ => rw [hafter] at h; cases h
    | ok va =>
      rw [hafter] at h
      dsimp only at h
      cases hg : getKey c (pyStrOpt (rGet e "AvatarId")) with
      | none => rw [hg] at h; cases h
      | some entry =>
        rw [hg] at h
        dsimp only at h
        cases h
        exact ⟨vb, va, entry, rfl, rfl, rfl, rfl⟩

theorem element_fold_facts {t : Tables} :
    ∀ {l : List Record} {c c' : Chars},
    foldE («_add_element_step» t) c l = .ok c' →
    (∀ e ∈ l, pyStrOpt (rGet e "AvatarId") ∈ c.map Prod.fst) ∧
    c'.map Prod.fst = c.map Prod.fst
  | [], c, c' => by intro h; cases h; simp
  | a :: l, c, c' => by
    intro h
    simp only [foldE] at h
    cases hstep : «_add_element_step» t c a with
    | error e₀ => rw [hstep] at h; cases h
    | ok c₀ =>
      rw [hstep] at h
      rcases element_step_ok hstep with ⟨vb, va, entry, _, _, hg, rfl⟩
      have hkmem : pyStrOpt (rGet a "AvatarId") ∈ c.map Prod.fst :=
        List.mem_map.mpr ⟨_, getKey_mem _ _ _ hg, rfl⟩
      have hkeys : (setKey c (pyStrOpt (rGet a "AvatarId"))
          { entry with element := some vb }).map Prod.fst = c.map Prod.fst :=
        setKey_map_fst_of_mem _ _ _ hkmem
      rcases element_fold_facts h with ⟨hall, heq⟩
      refine ⟨?_, heq.trans hkeys⟩
      intro e he
      rcases List.mem_cons.mp he with rfl | he'
      · exact hkmem
      · have := hall e he'
        rwa [hkeys] at this

theorem element_fold_pred {t : Tables} {P : String × CharRec → Prop}
    (hP : ∀ k r v, P (k, r) → P (k, { r with element := some v }))
    {l : List Record} {c c' : Chars}
    (h : foldE («_add_element_step» t) c l = .ok c')
    (hc : ∀ p ∈ c, P p) : ∀ p ∈ c', P p := by
  refine foldE_inv (P := fun s => ∀ p ∈ s, P p) ?_ h hc
  intro s a s' hstep hs p hp
  rcases element_step_ok hstep with ⟨vb, va, entry, _, _, hg, rfl⟩
  rcases mem_setKey_elim _ _ _ _ hp with h' | rfl
  · exact hs p h'
  · exact hP _ _ _ (hs _ (getKey_mem _ _ _ hg))

theorem mapE_pres {f : α → Except Err β} {P : α → Prop} {Q : β → Prop}
    (hf : ∀ a b, f a = .ok b → P a → Q b) {l : List α} {l' : List β}
    (h : mapE f l = .ok l') (hl : ∀ a ∈ l, P a) : ∀ b ∈ l', Q b := by
  intro b hb
  rcases mapE_ok_mem h b hb with ⟨a, ha, hab⟩
  exact hf a b hab (hl a ha)

theorem avatarMatches_true_iff {avatar_id : String} {r : Record} :
    avatarMatches avatar_id r = true ↔
      is_playable r = true ∧ ∃ v, rGet r "Id" = some v ∧ pyStr v = avatar_id := by
  simp [avatarMatches, Bool.and_eq_true, Option.map_eq_some']

/-! ## Decomposition of a successful pipeline run -/

theorem pipeline_ok {t : Tables} {c : Chars} (h : pipeline t = .ok c) :
    ∃ c1 c2 c3 c4, «_setup» t [] = .ok c1 ∧ «_add_description» t c1 = .ok c2 ∧
      «_add_rarity» t c2 = .ok c3 ∧ «_add_element» t c3 = .ok c4 ∧
      «_add_weapon» t c4 = .ok c := by
  unfold pipeline at h
  cases h1 : «_setup» t [] with
  | error e => rw [h1] at h; cases h
  | ok c1 =>
    rw [h1] at h
    dsimp only at h
    cases h2 : «_add_description» t c1 with
    | error e => rw [h2] at h; cases h
    | ok c2 =>
      rw [h2] at h
      dsimp only at h
      cases h3 : «_add_rarity» t c2 with
      | error e => rw [h3] at h; cases h
      | ok c3 =>
        rw [h3] at h
        dsimp only at h
        cases h4 : «_add_element» t c3 with
        | error e => rw [h4] at h; cases h
        | ok c4 =>
          rw [h4] at h
          dsimp only at h
          exact ⟨c1, c2, c3, c4, rfl, h2, h3, h4, h⟩

theorem description_keys {t : Tables} {c c' : Chars}
    (h : «_add_description» t c = .ok c') : c'.map Prod.fst = c.map Prod.fst := by
  refine mapE_ok_map_eq ?_ h
  intro p q hq
  rcases descriptionEntry_ok hq with ⟨a, d, -, -, rfl⟩
  rfl

theorem rarity_keys {t : Tables} {c c' : Chars}
    (h : «_add_rarity» t c = .ok c') : c'.map Prod.fst = c.map Prod.fst := by
  refine mapE_ok_map_eq ?_ h
  intro p q hq
  rcases rarityEntry_ok hq with ⟨a, -, rfl⟩
  rfl

theorem weapon_keys {t : Tables} {c c' : Chars}
    (h : «_add_weapon» t c = .ok c') : c'.map Prod.fst = c.map Prod.fst := by
  refine mapE_ok_map_eq ?_ h
  intro p q hq
  rcases weaponEntry_ok hq with ⟨a, w, hsh, wp, -, -, -, -, rfl⟩
  rfl

theorem element_keys {t : Tables} {c c' : Chars}
    (h : «_add_element» t c = .ok c') : c'.map Prod.fst = c.map Prod.fst :=
  (element_fold_facts h).2

theorem pipeline_keys {t : Tables} {c c1 c2 c3 c4 : Chars}
    (_h1 : «_setup» t [] = .ok c1) (h2 : «_add_description» t c1 = .ok c2)
    (h3 : «_add_rarity» t c2 = .ok c3) (h4 : «_add_element» t c3 = .ok c4)
    (h5 : «_add_weapon» t c4 = .ok c) : c.map Prod.fst = c1.map Prod.fst := by
  rw [weapon_keys h5, element_keys h4, rarity_keys h3, description_keys h2]

/-! ## Name and rarity invariants along the passes -/

theorem pipeline_names {t : Tables} {c : Chars} (h : pipeline t = .ok c) :
    ∀ p ∈ c, p.2.name ≠ "Traveler" := by
  rcases pipeline_ok h with ⟨c1, c2, c3, c4, h1, h2, h3, h4, h5⟩
  have n1 : ∀ p ∈ c1, p.2.name ≠ "Traveler" := setup_fold_names h1 (by simp)
  have n2 : ∀ p ∈ c2, p.2.name ≠ "Traveler" := by
    refine mapE_pres ?_ h2 n1
    intro p q hq hp
    rcases descriptionEntry_ok hq with ⟨a, d, -, -, rfl⟩
    exact hp
  have n3 : ∀ p ∈ c3, p.2.name ≠ "Traveler" := by
    refine mapE_pres ?_ h3 n2
    intro p q hq hp
    rcases rarityEntry_ok hq with ⟨a, -, rfl⟩
    exact hp
  have n4 : ∀ p ∈ c4, p.2.name ≠ "Traveler" := by
    refine element_fold_pred ?_ h4 n3
    intro k r v hp
    exact hp
  refine mapE_pres ?_ h5 n4
  intro p q hq hp
  rcases weaponEntry_ok hq with ⟨a, w, hsh, wp, -, -, -, -, rfl⟩
  exact hp

theorem rarity_conversion_cases (v : Option JVal) :
    rarity_conversion v = some "4" ∨ rarity_conversion v = some "5" ∨
      rarity_conversion v = none := by
  unfold rarity_conversion
  split
  · exact Or.inl rfl
  · exact Or.inr (Or.inl rfl)
  · exact Or.inr (Or.inl rfl)
  · exact Or.inr (Or.inr rfl)

theorem pipeline_rarity {t : Tables} {c : Chars} (h : pipeline t = .ok c) :
    ∀ p ∈ c, p.2.rarity = some (some "4") ∨ p.2.rarity = some (some "5") ∨
      p.2.rarity = some none := by
  rcases pipeline_ok h with ⟨c1, c2, c3, c4, h1, h2, h3, h4, h5⟩
  have r3 : ∀ p ∈ c3, p.2.rarity = some (some "4") ∨ p.2.rarity = some (some "5") ∨
      p.2.rarity = some none := by
    intro p hp
    rcases mapE_ok_mem h3 p hp with ⟨p₀, hmem, hq⟩
    rcases rarityEntry_ok hq with ⟨a, -, rfl⟩
    rcases rarity_conversion_cases (rGet a "QualityType") with hr | hr | hr <;>
      simp [hr]
  have r4 : ∀ p ∈ c4, p.2.rarity = some (some "4") ∨ p.2.rarity = some (some "5") ∨
      p.2.rarity = some none := by
    refine element_fold_pred ?_ h4 r3
    intro k r v hp
    exact hp
  refine mapE_pres ?_ h5 r4
  intro p q hq hp
  rcases weaponEntry_ok hq with ⟨a, w, hsh, wp, -, -, -, -, rfl⟩
  exact hp

/-! ## Pointwise descriptions of the setup step -/

theorem resolveTraveler_boy {e : Record} {n : String} (hlow : pyLower n = "traveler")
    (hb : rGet e "BodyType" = some (.s "BODY_BOY")) :
    resolveTraveler e n = .ok "Aether" := by
  unfold resolveTraveler
  rw [if_pos (by simp [hlow]), if_pos (by simp [hb])]

theorem resolveTraveler_girl {e : Record} {n : String} (hlow : pyLower n = "traveler")
    (hg : rGet e "BodyType" = some (.s "BODY_GIRL")) :
    resolveTraveler e n = .ok "Lumine" := by
  unfold resolveTraveler
  rw [if_pos (by simp [hlow]), if_neg (by simp [hg]), if_pos (by simp [hg])]

theorem resolveTraveler_other {e : Record} {n : String} (hlow : pyLower n = "traveler")
    (hb : rGet e "BodyType" ≠ some (.s "BODY_BOY"))
    (hg : rGet e "BodyType" ≠ some (.s "BODY_GIRL")) :
    resolveTraveler e n = .error .notImplementedError := by
  unfold resolveTraveler
  rw [if_pos (by simp [hlow]), if_neg (by simp [hb]), if_neg (by simp [hg])]

theorem setup_step_eq {t : Tables} {c : Chars} {e : Record} {nm fnm : String}
    (hp : is_playable e = true)
    (htm : Lookup.text_map t (pyStrOpt (rGet e "NameTextMapHash")) = .ok nm)
    (hrt : resolveTraveler e nm = .ok fnm) :
    «_setup_step» t c e =
      .ok (setKey c (pyStrOpt (rGet e "Id")) ⟨fnm, none, none, none, none⟩) := by
  unfold «_setup_step»
  rw [if_pos hp, htm]
  dsimp only
  rw [hrt]

theorem setup_step_err {t : Tables} {c : Chars} {e : Record} {nm : String}
    (hp : is_playable e = true)
    (htm : Lookup.text_map t (pyStrOpt (rGet e "NameTextMapHash")) = .ok nm)
    (hrt : resolveTraveler e nm = .error .notImplementedError) :
    «_setup_step» t c e = .error .notImplementedError := by
  unfold «_setup_step»
  rw [if_pos hp, htm]
  dsimp only
  rw [hrt]

theorem rarity_conversion_other {v : Option JVal}
    (h1 : v ≠ some (.s "QUALITY_PURPLE")) (h2 : v ≠ some (.s "QUALITY_ORANGE"))
    (h3 : v ≠ some (.s "QUALITY_ORANGE_SP")) : rarity_conversion v = none := by
  unfold rarity_conversion
  split
  · exact absurd rfl h1
  · exact absurd rfl h2
  · exact absurd rfl h3
  · rfl

/-! ## The claims -/

/-- Claim C1: running the full five-pass pipeline on the minimal fixture
(one playable avatar 10000002, one fetter record, one manual-text-map
record, the four text-map entries) produces exactly the accumulator
mapping "10000002" to name "Kamisato Ayaka", description "A shrine
maiden...", rarity "5", element "Cryo" and weapon "Sword". -/
theorem claim_C1 : pipeline fixtureTables = .ok fixtureOut := rfl

/-- Claim C2: whenever the pipeline succeeds, a character id is a key of
the final accumulator iff the avatar table has a record whose stringified
`Id` equals it and whose `UseType` is the playable sentinel. -/
theorem claim_C2 (t : Tables) (c : Chars) (h : pipeline t = .ok c)
    (avatar_id : String) :
    avatar_id ∈ c.map Prod.fst ↔
      ∃ r ∈ t.avatarData, avatarMatches avatar_id r = true := by
  rcases pipeline_ok h with ⟨c1, c2, c3, c4, h1, h2, h3, h4, h5⟩
  rw [pipeline_keys h1 h2 h3 h4 h5]
  constructor
  · intro hid
    rcases List.mem_map.mp hid with ⟨p, hp, rfl⟩
    rcases mapE_ok_forall h2 p hp with ⟨q, hq, hpq⟩
    rcases descriptionEntry_ok hpq with ⟨a, d, ha, -, -⟩
    rcases avatar_ok_facts ha with ⟨hmem, hmatch⟩
    exact ⟨a, hmem, hmatch⟩
  · rintro ⟨r, hr, hm⟩
    rcases avatarMatches_true_iff.mp hm with ⟨hp, v, hv, hpv⟩
    have hkey := setup_fold_playable_mem h1 r hr hp
    simp only [hv, pyStrOpt] at hkey
    rwa [hpv] at hkey

/-- Claim C2 at the fixture: "10000002" is a key of the fixture output,
and the fixture avatar table indeed has a matching playable record. -/
theorem claim_C2_witness :
    "10000002" ∈ fixtureOut.map Prod.fst ↔
      ∃ r ∈ fixtureTables.avatarData, avatarMatches "10000002" r = true :=
  claim_C2 fixtureTables fixtureOut rfl "10000002"

/-- Claim C3: in the Populate pass, a playable record whose resolved name
is "traveler" case-insensitively is stored as "Aether" under BodyType
BODY_BOY and as "Lumine" under BODY_GIRL; any other BodyType raises the
unhandled-case fault instead of storing a name; and the literal string
"Traveler" never appears as a name in the pipeline's output. -/
theorem claim_C3 :
    (∀ t c e nm, is_playable e = true →
      Lookup.text_map t (pyStrOpt (rGet e "NameTextMapHash")) = .ok nm →
      pyLower nm = "traveler" → rGet e "BodyType" = some (.s "BODY_BOY") →
      «_setup_step» t c e =
        .ok (setKey c (pyStrOpt (rGet e "Id")) ⟨"Aether", none, none, none, none⟩)) ∧
    (∀ t c e nm, is_playable e = true →
      Lookup.text_map t (pyStrOpt (rGet e "NameTextMapHash")) = .ok nm →
      pyLower nm = "traveler" → rGet e "BodyType" = some (.s "BODY_GIRL") →
      «_setup_step» t c e =
        .ok (setKey c (pyStrOpt (rGet e "Id")) ⟨"Lumine", none, none, none, none⟩)) ∧
    (∀ t c e nm, is_playable e = true →
      Lookup.text_map t (pyStrOpt (rGet e "NameTextMapHash")) = .ok nm →
      pyLower nm = "traveler" → rGet e "BodyType" ≠ some (.s "BODY_BOY") →
      rGet e "BodyType" ≠ some (.s "BODY_GIRL") →
      «_setup_step» t c e = .error .notImplementedError) ∧
    (∀ t c, pipeline t = .ok c → ∀ p ∈ c, p.2.name ≠ "Traveler") := by
  refine ⟨?_, ?_, ?_, ?_⟩
  · intro t c e nm hp htm hlow hb
    exact setup_step_eq hp htm (resolveTraveler_boy hlow hb)
  · intro t c e nm hp htm hlow hg
    exact setup_step_eq hp htm (resolveTraveler_girl hlow hg)
  · intro t c e nm hp htm hlow hb hg
    exact setup_step_err hp htm (resolveTraveler_other hlow hb hg)
  · intro t c h
    exact pipeline_names h

/-- Claim C4: the rarity conversion maps QUALITY_PURPLE to "4",
QUALITY_ORANGE and QUALITY_ORANGE_SP to "5" and everything else to null;
the Add Rarity pass never fails because of the quality vocabulary (it
fails only if an avatar lookup fails); every entry's rarity after the
pass is the conversion of its avatar's `QualityType`; and every rarity in
the pipeline's output is "4", "5" or null. -/
theorem claim_C4 :
    rarity_conversion (some (.s "QUALITY_PURPLE")) = some "4" ∧
    rarity_conversion (some (.s "QUALITY_ORANGE")) = some "5" ∧
    rarity_conversion (some (.s "QUALITY_ORANGE_SP")) = some "5" ∧
    (∀ v, v ≠ some (.s "QUALITY_PURPLE") → v ≠ some (.s "QUALITY_ORANGE") →
      v ≠ some (.s "QUALITY_ORANGE_SP") → rarity_conversion v = none) ∧
    (∀ t c, (∀ p ∈ c, ∃ r, Lookup.avatar t p.1 = .ok r) →
      ∃ c', «_add_rarity» t c = .ok c') ∧
    (∀ t c c', «_add_rarity» t c = .ok c' → ∀ p ∈ c',
      ∃ r, Lookup.avatar t p.1 = .ok r ∧
        p.2.rarity = some (rarity_conversion (rGet r "QualityType"))) ∧
    (∀ t c, pipeline t = .ok c → ∀ p ∈ c,
      p.2.rarity = some (some "4") ∨ p.2.rarity = some (some "5") ∨
        p.2.rarity = some none) := by
  refine ⟨rfl, rfl, rfl, fun v h1 h2 h3 => rarity_conversion_other h1 h2 h3, ?_, ?_, ?_⟩
  · intro t c hall
    refine mapE_ok_of_forall ?_
    intro p hp
    rcases hall p hp with ⟨r, hr⟩
    refine ⟨(p.1, { p.2 with
      rarity := some (rarity_conversion (rGet r "QualityType")) }), ?_⟩
    unfold rarityEntry
    rw [hr]
  · intro t c c' h p hp
    rcases mapE_ok_mem h p hp with ⟨p₀, hp₀, hq⟩
    rcases rarityEntry_ok hq with ⟨r, hr, rfl⟩
    exact ⟨r, hr, rfl⟩
  · intro t c h
    exact pipeline_rarity h

/-- Claim C5: the run writes nothing when it ends in an error (in
particular when an input document is missing), and it writes exactly the
final accumulator, as its last step, when loading and all five passes
succeed. -/
theorem claim_C5 :
    (∀ inp e, (mainRun inp).2 = .error e → (mainRun inp).1 = []) ∧
    (∀ inp, inp.avatarDoc = none →
      (mainRun inp).1 = [] ∧ ∃ e, (mainRun inp).2 = .error e) ∧
    (∀ inp, (mainRun inp).2 = .ok () → ∃ t c, loadTables inp = .ok t ∧
      pipeline t = .ok c ∧
      (mainRun inp).1 = [⟨"doc/avatar_sample.json", c⟩]) := by
  have hcases : ∀ inp : Inputs,
      (∃ e, mainRun inp = ([], .error e)) ∨
      (∃ t c, loadTables inp = .ok t ∧ pipeline t = .ok c ∧
        mainRun inp = ([⟨"doc/avatar_sample.json", c⟩], .ok ())) := by
    intro inp
    unfold mainRun
    cases hl : loadTables inp with
    | error e => exact Or.inl ⟨e, rfl⟩
    | ok t =>
      dsimp only
      cases hp : pipeline t with
      | error e => exact Or.inl ⟨e, rfl⟩
      | ok c => exact Or.inr ⟨t, c, rfl, hp, rfl⟩
  refine ⟨?_, ?_, ?_⟩
  · intro inp e h
    rcases hcases inp with ⟨e₀, heq⟩ | ⟨t, c, -, -, heq⟩
    · rw [heq]
    · rw [heq] at h
      simp at h
  · intro inp hnone
    rcases hcases inp with ⟨e₀, heq⟩ | ⟨t, c, hl, -, -⟩
    · exact ⟨by rw [heq], e₀, by rw [heq]⟩
    · simp [loadTables, pymonRead, hnone] at hl
  · intro inp h
    rcases hcases inp with ⟨e₀, heq⟩ | ⟨t, c, hl, hp, heq⟩
    · rw [heq] at h
      simp at h
    · exact ⟨t, c, hl, hp, by rw [heq]⟩

/-- Claim C6 is refuted at a table whose avatar table holds one playable
record with no `Id` field: no record matches the id "5", yet the lookup
fails with `KeyError "Id"`, not with the not-found error the claim
requires for that case. -/
theorem claim_C6_counterexample :
    Lookup.avatar cexTables "5" = .error (.keyError "Id") ∧
    Lookup.avatar cexTables "5" ≠ .error (notFoundErr "5") ∧
    (∀ r ∈ cexTables.avatarData, avatarMatches "5" r = false) :=
  ⟨rfl, by decide, by decide⟩

/-- Claim C6 (amended): provided every playable avatar record has an `Id`
field, `Lookup.avatar` returns the first playable record whose
stringified `Id` equals the argument, and it fails with the not-found
error exactly when no such record exists (so also when only non-playable
records carry that id); a playable record without `Id` instead raises a
key error, as the counterexample shows. -/
theorem claim_C6_amended (t : Tables) (avatar_id : String)
    (hid : ∀ r ∈ t.avatarData, is_playable r = true → (rGet r "Id").isSome = true) :
    (∀ r, Lookup.avatar t avatar_id = .ok r →
      ∃ l₁ l₂, t.avatarData = l₁ ++ r :: l₂ ∧ avatarMatches avatar_id r = true ∧
        ∀ x ∈ l₁, avatarMatches avatar_id x = false) ∧
    (Lookup.avatar t avatar_id = .error (notFoundErr avatar_id) ↔
      ∀ r ∈ t.avatarData, avatarMatches avatar_id r = false) :=
  ⟨fun _ h => avatarScan_ok h, avatarScan_notFound_iff hid⟩

/-- Claim C6 (amended) at the fixture: the id "99" matches no record, so
the lookup fails with the not-found error. -/
theorem claim_C6_witness :
    Lookup.avatar fixtureTables "99" = .error (notFoundErr "99") :=
  (claim_C6_amended fixtureTables "99" (by decide)).2.mpr (by decide)

/-- Claim C7: `Lookup.text_map` is a pure function of its argument (two
calls with the same hash give the identical result); it returns the
stringified value stored under the hash exactly when the key is present,
and fails — always with the invalid-hash `KeyError` — exactly when the
key is absent. -/
theorem claim_C7 (t : Tables) (hash_id : String) :
    (Lookup.text_map t hash_id = Lookup.text_map t hash_id) ∧
    (∀ s, Lookup.text_map t hash_id = .ok s ↔
      ∃ v, rGet t.textMapEN hash_id = some v ∧ s = pyStr v) ∧
    ((∃ e, Lookup.text_map t hash_id = .error e) ↔
      rGet t.textMapEN hash_id = none) ∧
    (∀ e, Lookup.text_map t hash_id = .error e → e = .keyError hash_id) := by
  unfold Lookup.text_map
  cases h : rGet t.textMapEN hash_id with
  | some v =>
    dsimp only
    refine ⟨rfl, ?_, by simp, by simp⟩
    intro s
    constructor
    · intro hs
      exact ⟨v, rfl, (Except.ok.inj hs).symm⟩
    · rintro ⟨v', hv', rfl⟩
      cases hv'
      rfl
  | none =>
    dsimp only
    refine ⟨rfl, by simp, ?_, ?_⟩
    · simp
    · intro e he
      exact (Except.error.inj he).symm

/-- Claim C8: the four enrichment passes after Populate neither insert
nor remove accumulator keys, and a successful pipeline's key set is
exactly the key set the Populate pass established. -/
theorem claim_C8 :
    (∀ t c c', «_add_description» t c = .ok c' → c'.map Prod.fst = c.map Prod.fst) ∧
    (∀ t c c', «_add_rarity» t c = .ok c' → c'.map Prod.fst = c.map Prod.fst) ∧
    (∀ t c c', «_add_element» t c = .ok c' → c'.map Prod.fst = c.map Prod.fst) ∧
    (∀ t c c', «_add_weapon» t c = .ok c' → c'.map Prod.fst = c.map Prod.fst) ∧
    (∀ t c, pipeline t = .ok c → ∃ c1, «_setup» t [] = .ok c1 ∧
      c.map Prod.fst = c1.map Prod.fst) :=
  ⟨fun _ _ _ h => description_keys h, fun _ _ _ h => rarity_keys h,
   fun _ _ _ h => element_keys h, fun _ _ _ h => weapon_keys h,
   fun _ _ h => by
     rcases pipeline_ok h with ⟨c1, c2, c3, c4, h1, h2, h3, h4, h5⟩
     exact ⟨c1, h1, pipeline_keys h1 h2 h3 h4 h5⟩⟩

/-- Claim C9: an avatar record without a `UseType` field is simply not
playable — the predicate returns false rather than raising — so the
Populate pass leaves the accumulator unchanged on such a record. -/
theorem claim_C9 (avatar : Record) (h : rGet avatar "UseType" = none) :
    is_playable avatar = false ∧ ∀ t c, «_setup_step» t c avatar = .ok c := by
  have hp : is_playable avatar = false := by
    unfold is_playable
    rw [h]
  refine ⟨hp, fun t c => ?_⟩
  unfold «_setup_step»
  rw [hp]
  simp

/-- Claim C9 at a concrete record with an `Id` but no `UseType` field. -/
theorem claim_C9_witness :
    is_playable [("Id", JVal.n 1)] = false ∧
      ∀ t c, «_setup_step» t c [("Id", JVal.n 1)] = .ok c :=
  claim_C9 [("Id", JVal.n 1)] rfl

/-- Claim C10: when both vision hashes of a fetter record resolve but its
stringified `AvatarId` is not an accumulator key, the Add Element step
fails with exactly that key's `KeyError` (it neither skips the record nor
inserts an entry); consequently the pass succeeds only when every fetter
record's `AvatarId` is already a key of the accumulator. -/
theorem claim_C10 :
    (∀ t c e vb va,
      Lookup.text_map t (pyStrOpt (rGet e "AvatarVisionBeforTextMapHash")) = .ok vb →
      Lookup.text_map t (pyStrOpt (rGet e "AvatarVisionAfterTextMapHash")) = .ok va →
      pyStrOpt (rGet e "AvatarId") ∉ c.map Prod.fst →
      «_add_element_step» t c e =
        .error (.keyError (pyStrOpt (rGet e "AvatarId")))) ∧
    (∀ t c c', «_add_element» t c = .ok c' →
      ∀ e ∈ t.fetterData, pyStrOpt (rGet e "AvatarId") ∈ c.map Prod.fst) := by
  constructor
  · intro t c e vb va hb ha hmem
    unfold «_add_element_step»
    rw [hb]
    dsimp only
    rw [ha]
    dsimp only
    rw [(getKey_none_iff c _).mpr hmem]
  · intro t c c' h e he
    exact (element_fold_facts h).1 e he

end Pymon
